import Mathlib

/-!
# WolfeBot role-menu bot: shallow embedding and verification

This file embeds the record-management and diff-and-apply logic of
`Wolfe_role_react.py` (a Discord role-menu bot) and proves or refutes the
specification claims about it.

Conventions of the embedding:
* Discord snowflake identifiers (guild, channel, message, role ids) are
  non-negative integers in the source (parsed from `\d+` regex groups or
  provided by the platform), so they are modelled as `Nat`.
* Python strings are Lean `String`s; where character-level scanning is
  needed (the role-mention regex, the message-link regex, f-string key
  construction) we work on the underlying `List Char`.
* The JSON file written by `save_storage` / read by `load_storage` is
  modelled by an explicit `Json` AST; a file whose bytes do not parse as
  JSON at all is modelled by the `FileState.malformed` state (we do not
  embed a textual JSON parser, only the post-parse structure).
* Platform side effects (posting a message, granting roles) are recorded
  in explicit effect structures returned by the embedded handlers.
-/

namespace WolfeBot

/-! ## Decimal rendering of identifiers (Python `str(int)` / f-strings)

`record_key` in the source is `f"{guild_id}:{message_id}"`. We model the
decimal rendering of a non-negative integer from first principles so that
its properties (digit characters only, injectivity) can be proved.
-/

/-- The ASCII character of a single decimal digit `d < 10`. -/
def digitChar (d : Nat) : Char := Char.ofNat (48 + d)

/-- Worker for `natDigits`, structurally recursive on a fuel argument so
that it evaluates by definitional unfolding; any `fuel > n` is enough,
since dividing by 10 at least halves `n`. -/
def natDigitsGo : Nat → Nat → List Char
  | 0, _ => []
  | fuel + 1, n =>
    if n < 10 then [digitChar n]
    else natDigitsGo fuel (n / 10) ++ [digitChar (n % 10)]

/-- Decimal digit characters of `n`, most significant first; `"0"` for 0.
This is the rendering Python's `str`/f-string applies to a non-negative
`int`. -/
def natDigits (n : Nat) : List Char := natDigitsGo (n + 1) n

/-- Numeric value of a digit string, as Python `int(...)` computes it for a
string of decimal digits. -/
def digitsToNat (l : List Char) : Nat :=
  l.foldl (fun a c => 10 * a + (c.toNat - 48)) 0

/-- Decimal string of a non-negative integer. -/
def natRepr (n : Nat) : String := String.mk (natDigits n)

/-- `record_key` from the source: `f"{guild_id}:{message_id}"`. -/
def record_key (guild_id : Nat) (message_id : Nat) : String :=
  String.mk (natDigits guild_id ++ ':' :: natDigits message_id)

/-! ## Data model: `RoleMenuRecord` and the registry -/

/-- The persisted dataclass `RoleMenuRecord`. -/
structure RoleMenuRecord where
  guild_id : Nat
  channel_id : Nat
  message_id : Nat
  title : String
  role_ids : List Nat
  multi : Bool := true
deriving DecidableEq, Repr

/-- The in-memory registry `storage : Dict[str, RoleMenuRecord]`, modelled
as an association list; Python dictionaries have pairwise distinct keys,
which appears as a `Nodup` hypothesis where it matters. -/
abbrev Registry : Type := List (String × RoleMenuRecord)

/-- Dictionary lookup `storage[k]` / `k in storage`. -/
def Registry.lookup (k : String) : Registry → Option RoleMenuRecord
  | [] => none
  | kv :: rest => if kv.1 = k then some kv.2 else Registry.lookup k rest

/-- Dictionary assignment `storage[k] = v` (replaces an existing binding,
otherwise appends, as CPython dicts preserve insertion order). -/
def Registry.setKey (k : String) (v : RoleMenuRecord) : Registry → Registry
  | [] => [(k, v)]
  | kv :: rest => if kv.1 = k then (k, v) :: rest else kv :: Registry.setKey k v rest

/-- Dictionary removal `storage.pop(k, None)` (drops the binding of `k`,
if any). -/
def Registry.eraseKey (k : String) : Registry → Registry
  | [] => []
  | kv :: rest => if kv.1 = k then rest else kv :: Registry.eraseKey k rest

/-! ## JSON storage (`save_storage` / `load_storage`)

`save_storage` writes `{k: asdict(v) for k, v in data.items()}` with
`json.dump`; `load_storage` reads it back with `json.load` and rebuilds
each value with `RoleMenuRecord(**v)`.
-/

/-- Post-parse JSON values (what `json.load` yields on success). -/
inductive Json where
  | null
  | bool (b : Bool)
  | num (n : Int)
  | str (s : String)
  | arr (xs : List Json)
  | obj (fields : List (String × Json))

/-- `dataclasses.asdict` on a `RoleMenuRecord`, in field order. -/
def asdict (r : RoleMenuRecord) : Json :=
  Json.obj
    [ ("guild_id", Json.num (Int.ofNat r.guild_id))
    , ("channel_id", Json.num (Int.ofNat r.channel_id))
    , ("message_id", Json.num (Int.ofNat r.message_id))
    , ("title", Json.str r.title)
    , ("role_ids", Json.arr (r.role_ids.map (fun i => Json.num (Int.ofNat i))))
    , ("multi", Json.bool r.multi) ]

/-- The JSON document `save_storage` serializes for a registry. -/
def save_storage (data : Registry) : Json :=
  Json.obj (data.map (fun kv => (kv.1, asdict kv.2)))

/-- First binding of a key in a JSON object (keyword lookup). -/
def getField (fields : List (String × Json)) (k : String) : Option Json :=
  (fields.find? (fun kv => kv.1 = k)).map (fun kv => kv.2)

/-- Field names `RoleMenuRecord(**v)` accepts; any other keyword raises
`TypeError`. -/
def allowedKeys : List String :=
  ["guild_id", "channel_id", "message_id", "title", "role_ids", "multi"]

/-- Decode one JSON value as a non-negative identifier. -/
def asNat (j : Json) : Option Nat :=
  match j with
  | Json.num n => if 0 ≤ n then some n.toNat else none
  | _ => none

/-- Decode a JSON array of identifiers. -/
def asNatList : List Json → Option (List Nat)
  | [] => some []
  | j :: rest =>
    match asNat j, asNatList rest with
    | some n, some ns => some (n :: ns)
    | _, _ => none

/-- `RoleMenuRecord(**v)`: requires the five default-free fields, allows
`multi` to be absent (defaulting to `True`), and rejects unknown keywords.
The embedding additionally requires each field to carry the type the
dataclass declares (the typed counterpart of Python's untyped fields). -/
def decodeRecord (j : Json) : Option RoleMenuRecord :=
  match j with
  | Json.obj fields =>
    if fields.all (fun kv => kv.1 ∈ allowedKeys) then
      match getField fields "guild_id", getField fields "channel_id",
            getField fields "message_id", getField fields "title",
            getField fields "role_ids" with
      | some jg, some jc, some jm, some (Json.str t), some (Json.arr rs) =>
        match asNat jg, asNat jc, asNat jm, asNatList rs with
        | some g, some c, some m, some ids =>
          match getField fields "multi" with
          | none => some ⟨g, c, m, t, ids, true⟩
          | some (Json.bool b) => some ⟨g, c, m, t, ids, b⟩
          | some _ => none
        | _, _, _, _ => none
      | _, _, _, _, _ => none
    else none
  | _ => none

/-- Decode the entries of the storage object in order
(`for k, v in raw.items(): out[k] = RoleMenuRecord(**v)`). -/
def decodeEntries : List (String × Json) → Option Registry
  | [] => some []
  | kv :: rest =>
    match decodeRecord kv.2, decodeEntries rest with
    | some r, some m => some ((kv.1, r) :: m)
    | _, _ => none

/-- Decode the whole storage document: a top-level object whose every
value decodes as a record. -/
def decodeStorage (j : Json) : Option Registry :=
  match j with
  | Json.obj fields => decodeEntries fields
  | _ => none

/-- The state of the storage file on disk as `load_storage` observes it:
absent, present but not parseable as JSON, or parsed to a JSON value. -/
inductive FileState where
  | missing
  | malformed
  | parsed (j : Json)

/-- The error condition raised out of `load_storage` (a `json.JSONDecodeError`,
`AttributeError` or `TypeError` propagating out of the module-level
`storage = load_storage()`, which aborts startup). -/
inductive StorageError where
  | corrupt
deriving DecidableEq, Repr

/-- `load_storage`: empty mapping when the file is absent; otherwise parse
and rebuild records, letting any failure propagate as an exception. -/
def load_storage : FileState → Except StorageError Registry
  | FileState.missing => Except.ok []
  | FileState.malformed => Except.error StorageError.corrupt
  | FileState.parsed j =>
    match decodeStorage j with
    | some m => Except.ok m
    | none => Except.error StorageError.corrupt

/-! ## Guild roles -/

/-- A guild role as the handlers see it: identifier, display name, and
position in the role hierarchy. -/
structure Role where
  id : Nat
  name : String
  position : Nat
deriving DecidableEq, Repr

/-- discord.py's `Role.__lt__`: ordered by position, ties broken by
identifier (an older role, with the smaller snowflake, ranks higher). -/
def Role.lt (a b : Role) : Bool :=
  a.position < b.position || (a.position = b.position && b.id < a.id)

/-- discord.py's `Role.__ge__` (negation of `__lt__` for this total order),
the comparison `r >= interaction.guild.me.top_role` in `create`. -/
def Role.ge (a b : Role) : Bool := !(Role.lt a b)

/-- The guild data the handlers consult. -/
structure Guild where
  id : Nat
  roles : List Role
deriving DecidableEq, Repr

/-- `guild.get_role(rid)`: the guild's role with that id, if any. -/
def Guild.get_role (g : Guild) (rid : Nat) : Option Role :=
  g.roles.find? (fun r => r.id = rid)

/-! ## `parse_role_mentions` (the regex `<@&(?P<id>\d+)>` over free text) -/

/-- Try to match one role mention `<@&digits>` at the head of the text;
on success return the parsed id and the remaining text after the `>`.
The digit run is maximal, as the regex's greedy `\d+` followed by the
mandatory `>` forces. -/
def matchMention (l : List Char) : Option (Nat × List Char) :=
  match l with
  | '<' :: '@' :: '&' :: rest =>
    let ds := rest.takeWhile Char.isDigit
    let rest' := rest.dropWhile Char.isDigit
    if ds.isEmpty then none
    else
      match rest' with
      | '>' :: tail => some (digitsToNat ds, tail)
      | _ => none
  | _ => none

/-- Scanner worker for `parse_role_mentions`: collect the ids of all
non-overlapping `<@&digits>` matches, scanning left to right and
restarting one character later after a failed match attempt (as
`re.finditer` does). Structurally recursive on a fuel argument so that it
evaluates by definitional unfolding; `matchMention_length_lt` shows every
step strictly shortens the text, so fuel at least the text length never
runs out (`parseMentionsGo_fuel_irrel`). -/
def parseMentionsGo : Nat → List Char → List Nat
  | 0, _ => []
  | _, [] => []
  | fuel + 1, c :: rest =>
    match matchMention (c :: rest) with
    | some (n, t) => n :: parseMentionsGo fuel t
    | none => parseMentionsGo fuel rest

/-- `parse_role_mentions(text)`. -/
def parse_role_mentions (text : String) : List Nat :=
  parseMentionsGo text.data.length text.data

/-! ## The selection handler (`RolesSelect.callback`)

The callback computes, from the member's current role ids, the menu's
option values and the submitted values (Python sets of ids):
`roles_to_remove = [r for r in member.roles if r.id in menu_role_ids]` and
`roles_to_add = [guild.get_role(rid) for rid in selected_ids]` with `None`
entries dropped, then removes the former and adds the latter.
Sets of ids are modelled as `Finset Nat`; `existingRoles` is the set of
ids for which `guild.get_role` succeeds.
-/

/-- Ids of the roles the callback removes: the member's current roles that
belong to this menu. -/
def roles_to_remove (memberRoles menuRoleIds : Finset Nat) : Finset Nat :=
  memberRoles.filter (fun r => r ∈ menuRoleIds)

/-- Ids of the roles the callback adds: every selected id that resolves to
an existing guild role. -/
def roles_to_add (existingRoles selectedIds : Finset Nat) : Finset Nat :=
  selectedIds.filter (fun r => r ∈ existingRoles)

/-- The member's role-id set after the callback's remove-then-add pair of
platform calls both succeed. -/
def applySelection (memberRoles menuRoleIds existingRoles selectedIds : Finset Nat) :
    Finset Nat :=
  (memberRoles \ roles_to_remove memberRoles menuRoleIds) ∪
    roles_to_add existingRoles selectedIds

/-- Modelled from the spec (§4.2): `toRevoke = currentRoleIds ∩ menuRoleIds
\ selectedRoleIds`. Stated for comparison with `roles_to_remove`, the set
the source actually computes. -/
def spec_toRevoke (currentRoleIds menuRoleIds selectedRoleIds : Finset Nat) : Finset Nat :=
  (currentRoleIds ∩ menuRoleIds) \ selectedRoleIds

/-- Modelled from the spec (§4.2): `toGrant = selectedRoleIds \
currentRoleIds`. Stated for comparison with `roles_to_add`, the set the
source actually computes. -/
def spec_toGrant (currentRoleIds selectedRoleIds : Finset Nat) : Finset Nat :=
  selectedRoleIds \ currentRoleIds

/-! ## `delete`'s message-link regex `/channels/(\d+)/(\d+)/(\d+)$` -/

/-- Try to match `/channels/<d+>/<d+>/<d+>` at the head of the text,
requiring the third digit run to end the string (the `$` anchor). -/
def matchLinkHere (l : List Char) : Option (Nat × Nat × Nat) :=
  if l.take 10 = "/channels/".data then
    let after := l.drop 10
    let d1 := after.takeWhile Char.isDigit
    match after.dropWhile Char.isDigit with
    | '/' :: r2 =>
      let d2 := r2.takeWhile Char.isDigit
      match r2.dropWhile Char.isDigit with
      | '/' :: r4 =>
        let d3 := r4.takeWhile Char.isDigit
        if d1.isEmpty || d2.isEmpty || d3.isEmpty then none
        else if r4.dropWhile Char.isDigit = [] then
          some (digitsToNat d1, digitsToNat d2, digitsToNat d3)
        else none
      | _ => none
    | _ => none
  else none

/-- `re.search` of the link pattern: try each start position from the
left; the match itself is unique because of the `$` anchor. -/
def searchLink : List Char → Option (Nat × Nat × Nat)
  | [] => none
  | c :: rest =>
    match matchLinkHere (c :: rest) with
    | some r => some r
    | none => searchLink rest

/-- Parse the `message_link` argument into `(guild, channel, message)` ids. -/
def parseMessageLink (link : String) : Option (Nat × Nat × Nat) :=
  searchLink link.data

/-! ## The `/role_menu create` command -/

/-- The interaction context `create` consults: invoking user and guild,
the bot member's permissions and top role, the channel the command runs
in, and the id the platform will assign to the posted message. -/
structure BotCtx where
  user_present : Bool
  guild : Option Guild
  manage_roles : Bool
  top_role : Role
  channel_id : Nat
  next_message_id : Nat
deriving DecidableEq, Repr

/-- How a `create` invocation ends: each abort corresponds to one of the
ephemeral error responses in the source, `success` to posting the menu. -/
inductive CreateOutcome where
  | guildOnly
  | needManageRoles
  | noMentions
  | tooMany
  | roleTooHigh (name : String)
  | success (message_id : Nat)
deriving DecidableEq, Repr

/-- Observable effects of a `create` invocation: its outcome, whether a
menu message was posted to the channel, the registry afterwards, and the
JSON document written to the storage file (if any). -/
structure CreateEffects where
  outcome : CreateOutcome
  posted : Bool
  registry : Registry
  saved : Option Json

/-- The validation loop of `create`: resolve each mentioned id with
`guild.get_role`, silently skipping ids that resolve to `None`, and abort
at the first role not strictly below the bot's top role. -/
def validateRoles (g : Guild) (top : Role) : List Nat → Except String (List Role)
  | [] => Except.ok []
  | rid :: rest =>
    match g.get_role rid with
    | none => validateRoles g top rest
    | some r =>
      if Role.ge r top then Except.error r.name
      else (validateRoles g top rest).map (fun rs => r :: rs)

/-- The `create` slash command, from the guard clauses through posting the
message and persisting the record. -/
def create (ctx : BotCtx) (reg : Registry) (title roles : String) (multi : Bool) :
    CreateEffects :=
  match ctx.guild with
  | none => ⟨CreateOutcome.guildOnly, false, reg, none⟩
  | some g =>
    if !ctx.user_present then ⟨CreateOutcome.guildOnly, false, reg, none⟩
    else if !ctx.manage_roles then ⟨CreateOutcome.needManageRoles, false, reg, none⟩
    else
      let role_ids := parse_role_mentions roles
      if role_ids.isEmpty then ⟨CreateOutcome.noMentions, false, reg, none⟩
      else if role_ids.length > 25 then ⟨CreateOutcome.tooMany, false, reg, none⟩
      else
        match validateRoles g ctx.top_role role_ids with
        | Except.error nm => ⟨CreateOutcome.roleTooHigh nm, false, reg, none⟩
        | Except.ok resolved =>
          let msg_id := ctx.next_message_id
          let rcd : RoleMenuRecord :=
            ⟨g.id, ctx.channel_id, msg_id, title, resolved.map (fun r => r.id), multi⟩
          let reg' := Registry.setKey (record_key rcd.guild_id rcd.message_id) rcd reg
          ⟨CreateOutcome.success msg_id, true, reg', some (save_storage reg')⟩

/-! ## The `/role_menu delete` command -/

/-- What happens when `delete` tries to remove the underlying chat
message: modelled as an environment parameter since it involves only
remote platform state. -/
inductive FetchOutcome where
  | ok
  | notFound
  | forbidden
deriving DecidableEq, Repr

/-- The interaction context `delete` consults. -/
structure DeleteCtx where
  guild_id : Option Nat
  channel_is_text : Nat → Bool
  fetch : FetchOutcome

/-- How a `delete` invocation ends. -/
inductive DeleteOutcome where
  | guildOnly
  | invalidLink
  | wrongServer
  | notFound
  | removedWithWarning
  | removed
deriving DecidableEq, Repr

/-- Observable effects of a `delete` invocation. -/
structure DeleteEffects where
  outcome : DeleteOutcome
  registry : Registry
  saved : Option Json
  messageDeleted : Bool

/-- The `delete` slash command: parse the link, check the guild, look up
the registry key, best-effort delete the message, then unconditionally
drop the record and persist. -/
def delete (ctx : DeleteCtx) (reg : Registry) (message_link : String) : DeleteEffects :=
  match ctx.guild_id with
  | none => ⟨DeleteOutcome.guildOnly, reg, none, false⟩
  | some gid =>
    match parseMessageLink message_link with
    | none => ⟨DeleteOutcome.invalidLink, reg, none, false⟩
    | some (g_id, c_id, msg_id) =>
      if g_id ≠ gid then ⟨DeleteOutcome.wrongServer, reg, none, false⟩
      else
        let key := record_key g_id msg_id
        match Registry.lookup key reg with
        | none => ⟨DeleteOutcome.notFound, reg, none, false⟩
        | some _ =>
          let deleted := ctx.channel_is_text c_id && ctx.fetch = FetchOutcome.ok
          let warned := ctx.channel_is_text c_id && ctx.fetch = FetchOutcome.forbidden
          let reg' := Registry.eraseKey key reg
          ⟨if warned then DeleteOutcome.removedWithWarning else DeleteOutcome.removed,
           reg', some (save_storage reg'), deleted⟩

/-- The registry key invariant: every stored binding's key is the
`record_key` of its own record's guild and message identifiers. -/
def KeyInv (reg : Registry) : Prop :=
  ∀ kv ∈ reg, kv.1 = record_key kv.2.guild_id kv.2.message_id

/-! ## Supporting lemmas -/

theorem length_dropWhile_le (p : Char → Bool) (l : List Char) :
    (l.dropWhile p).length ≤ l.length :=
  (List.IsSuffix.sublist (List.dropWhile_suffix p)).length_le

/-- A successful mention match strictly shortens the text, so the scanning
fuel in `parse_role_mentions` never runs out. -/
theorem matchMention_length_lt {l : List Char} {n : Nat} {t : List Char}
    (h : matchMention l = some (n, t)) : t.length < l.length := by
  unfold matchMention at h
  split at h
  next rest =>
    simp only at h
    split at h
    · exact absurd h (by simp)
    · have hle : (rest.dropWhile Char.isDigit).length ≤ rest.length :=
        length_dropWhile_le _ _
      split at h
      next c tail heq =>
        rw [heq] at hle
        simp only [Option.some.injEq, Prod.mk.injEq] at h
        obtain ⟨-, h2⟩ := h
        subst h2
        simp only [List.length_cons] at hle ⊢
        omega
      next => exact absurd h (by simp)
  next => exact absurd h (by simp)

/-- Any fuel at least the text length computes the same scan, so the
`text.length` fuel in `parse_role_mentions` is not an approximation. -/
theorem parseMentionsGo_fuel_irrel :
    ∀ fuel fuel' l, l.length ≤ fuel → l.length ≤ fuel' →
      parseMentionsGo fuel l = parseMentionsGo fuel' l := by
  intro fuel
  induction fuel with
  | zero =>
    intro fuel' l hl _
    have : l = [] := List.length_eq_zero.mp (Nat.le_zero.mp hl)
    subst this
    cases fuel' <;> rfl
  | succ f ih =>
    intro fuel' l hl hl'
    match l with
    | [] => cases fuel' <;> rfl
    | c :: rest =>
      match fuel', hl' with
      | f' + 1, hl' =>
        simp only [parseMentionsGo]
        cases hm : matchMention (c :: rest) with
        | some nt =>
          obtain ⟨n, t⟩ := nt
          have hlt := matchMention_length_lt hm
          dsimp only
          simp only [List.length_cons] at hl hl' hlt
          rw [ih f' t (by omega) (by omega)]
        | none =>
          dsimp only
          simp only [List.length_cons] at hl hl'
          rw [ih f' rest (by omega) (by omega)]

theorem Registry.mem_setKey {kv : String × RoleMenuRecord} {k : String}
    {v : RoleMenuRecord} {reg : Registry} (h : kv ∈ Registry.setKey k v reg) :
    kv = (k, v) ∨ kv ∈ reg := by
  induction reg with
  | nil => exact Or.inl (List.mem_singleton.mp h)
  | cons kv' rest ih =>
    simp only [Registry.setKey] at h
    split at h
    · rcases List.mem_cons.mp h with h | h
      · exact Or.inl h
      · exact Or.inr (List.mem_cons_of_mem _ h)
    · rcases List.mem_cons.mp h with h | h
      · exact Or.inr (h ▸ List.mem_cons_self _ _)
      · rcases ih h with h | h
        · exact Or.inl h
        · exact Or.inr (List.mem_cons_of_mem _ h)

theorem Registry.mem_eraseKey {kv : String × RoleMenuRecord} {k : String}
    {reg : Registry} (h : kv ∈ Registry.eraseKey k reg) : kv ∈ reg := by
  induction reg with
  | nil => exact absurd h (List.not_mem_nil kv)
  | cons kv' rest ih =>
    simp only [Registry.eraseKey] at h
    split at h
    · exact List.mem_cons_of_mem _ h
    · rcases List.mem_cons.mp h with h | h
      · exact h ▸ List.mem_cons_self _ _
      · exact List.mem_cons_of_mem _ (ih h)

theorem Registry.lookup_eq_none_of_not_mem {k : String} {reg : Registry}
    (h : k ∉ reg.map Prod.fst) : Registry.lookup k reg = none := by
  induction reg with
  | nil => rfl
  | cons kv rest ih =>
    simp only [List.map_cons, List.mem_cons, not_or] at h
    simp only [Registry.lookup]
    rw [if_neg (fun he => h.1 he.symm), ih h.2]

theorem Registry.lookup_eraseKey_self {k : String} {reg : Registry}
    (hnd : (reg.map Prod.fst).Nodup) :
    Registry.lookup k (Registry.eraseKey k reg) = none := by
  induction reg with
  | nil => rfl
  | cons kv rest ih =>
    simp only [List.map_cons, List.nodup_cons] at hnd
    obtain ⟨hk, hnd'⟩ := hnd
    simp only [Registry.eraseKey]
    split
    next heq =>
      subst heq
      exact Registry.lookup_eq_none_of_not_mem hk
    next heq =>
      simp only [Registry.lookup]
      rw [if_neg heq, ih hnd']

theorem Registry.lookup_eraseKey_ne {k k' : String} {reg : Registry}
    (hne : k' ≠ k) :
    Registry.lookup k' (Registry.eraseKey k reg) = Registry.lookup k' reg := by
  induction reg with
  | nil => rfl
  | cons kv rest ih =>
    simp only [Registry.eraseKey]
    split
    next heq =>
      subst heq
      simp only [Registry.lookup]
      rw [if_neg (fun h => hne h.symm)]
    next =>
      simp only [Registry.lookup]
      split
      · rfl
      · exact ih

theorem validateRoles_ok_length {g : Guild} {top : Role} :
    ∀ {l : List Nat} {rs : List Role},
      validateRoles g top l = Except.ok rs → rs.length ≤ l.length := by
  intro l
  induction l with
  | nil =>
    intro rs h
    simp only [validateRoles, Except.ok.injEq] at h
    simp [← h]
  | cons rid rest ih =>
    intro rs h
    unfold validateRoles at h
    cases hr : g.get_role rid with
    | none =>
      rw [hr] at h
      dsimp only at h
      exact Nat.le_succ_of_le (ih h)
    | some r =>
      rw [hr] at h
      dsimp only at h
      split at h
      · cases h
      · cases hok : validateRoles g top rest with
        | error nm =>
          rw [hok] at h
          simp only [Except.map] at h
          exact Except.noConfusion h
        | ok rs' =>
          rw [hok] at h
          simp only [Except.map, Except.ok.injEq] at h
          subst h
          simpa using ih hok

theorem validateRoles_error_of_exists {g : Guild} {top : Role} :
    ∀ {l : List Nat},
      (∃ rid ∈ l, ∃ r, g.get_role rid = some r ∧ Role.ge r top = true) →
      ∃ nm, validateRoles g top l = Except.error nm := by
  intro l
  induction l with
  | nil => rintro ⟨rid, h, -⟩; cases h
  | cons rid0 rest ih =>
    rintro ⟨rid, hmem, r, hr, hge⟩
    unfold validateRoles
    cases hr0 : g.get_role rid0 with
    | none =>
      dsimp only
      rcases List.mem_cons.mp hmem with heq | hmem'
      · subst heq; rw [hr0] at hr; cases hr
      · exact ih ⟨rid, hmem', r, hr, hge⟩
    | some r0 =>
      dsimp only
      by_cases hge0 : Role.ge r0 top = true
      · rw [if_pos hge0]
        exact ⟨r0.name, rfl⟩
      · rw [if_neg hge0]
        rcases List.mem_cons.mp hmem with heq | hmem'
        · subst heq
          rw [hr0] at hr
          cases hr
          exact absurd hge hge0
        · obtain ⟨nm, hnm⟩ := ih ⟨rid, hmem', r, hr, hge⟩
          exact ⟨nm, by rw [hnm]; rfl⟩

theorem validateRoles_ok_of_forall {g : Guild} {top : Role} :
    ∀ {l : List Nat},
      (∀ rid ∈ l, ∀ r, g.get_role rid = some r → Role.ge r top = false) →
      validateRoles g top l = Except.ok (l.filterMap g.get_role) := by
  intro l
  induction l with
  | nil => intro _; rfl
  | cons rid rest ih =>
    intro h
    have hrest : ∀ rid' ∈ rest, ∀ r, g.get_role rid' = some r → Role.ge r top = false :=
      fun rid' hm => h rid' (List.mem_cons_of_mem _ hm)
    unfold validateRoles
    rw [List.filterMap_cons]
    cases hr : g.get_role rid with
    | none =>
      dsimp only
      exact ih hrest
    | some r =>
      dsimp only
      have hge := h rid (List.mem_cons_self _ _) r hr
      rw [if_neg (by simp [hge]), ih hrest]
      rfl

theorem digitChar_isDigit {d : Nat} (h : d < 10) : (digitChar d).isDigit = true := by
  interval_cases d <;> decide

theorem digitChar_toNat {d : Nat} (h : d < 10) : (digitChar d).toNat = 48 + d := by
  interval_cases d <;> decide

theorem natDigitsGo_mem_isDigit :
    ∀ fuel n c, c ∈ natDigitsGo fuel n → c.isDigit = true := by
  intro fuel
  induction fuel with
  | zero => intro n c h; cases h
  | succ f ih =>
    intro n c h
    simp only [natDigitsGo] at h
    split at h
    next h10 =>
      rw [List.mem_singleton.mp h]
      exact digitChar_isDigit h10
    next =>
      rcases List.mem_append.mp h with h | h
      · exact ih _ _ h
      · rw [List.mem_singleton.mp h]
        exact digitChar_isDigit (Nat.mod_lt _ (by norm_num))

theorem natDigitsGo_ne_nil {fuel n : Nat} (h : 0 < fuel) :
    natDigitsGo fuel n ≠ [] := by
  match fuel, h with
  | f + 1, _ =>
    simp only [natDigitsGo]
    split <;> simp

theorem digitsToNat_append (a : List Char) (c : Char) :
    digitsToNat (a ++ [c]) = 10 * digitsToNat a + (c.toNat - 48) := by
  simp [digitsToNat, List.foldl_append]

theorem digitsToNat_natDigitsGo :
    ∀ fuel n, n < fuel → digitsToNat (natDigitsGo fuel n) = n := by
  intro fuel
  induction fuel with
  | zero => intro n h; omega
  | succ f ih =>
    intro n h
    simp only [natDigitsGo]
    split
    next h10 =>
      simp only [digitsToNat, List.foldl_cons, List.foldl_nil,
        digitChar_toNat h10]
      omega
    next h10 =>
      have hdiv : n / 10 < n := Nat.div_lt_self (by omega) (by norm_num)
      rw [digitsToNat_append, ih (n / 10) (by omega),
        digitChar_toNat (Nat.mod_lt _ (by norm_num))]
      omega

theorem digitsToNat_natDigits (n : Nat) : digitsToNat (natDigits n) = n :=
  digitsToNat_natDigitsGo _ _ (Nat.lt_succ_self n)

theorem natDigits_inj {a b : Nat} (h : natDigits a = natDigits b) : a = b := by
  have := digitsToNat_natDigits a
  rw [h, digitsToNat_natDigits] at this
  exact this.symm

theorem colon_not_mem_natDigits (n : Nat) : ':' ∉ natDigits n := by
  intro hm
  have := natDigitsGo_mem_isDigit _ _ _ hm
  simp at this

theorem append_colon_inj :
    ∀ {a1 : List Char} {a2 b1 b2 : List Char},
      ':' ∉ a1 → ':' ∉ a2 → a1 ++ ':' :: b1 = a2 ++ ':' :: b2 →
      a1 = a2 ∧ b1 = b2 := by
  intro a1
  induction a1 with
  | nil =>
    intro a2 b1 b2 _ h2 h
    cases a2 with
    | nil =>
      simp only [List.nil_append, List.cons.injEq] at h
      exact ⟨rfl, h.2⟩
    | cons c a2' =>
      simp only [List.nil_append, List.cons_append, List.cons.injEq] at h
      exact absurd (h.1 ▸ List.mem_cons_self c a2') (fun hm => h2 (h.1 ▸ hm))
  | cons c a1' ih =>
    intro a2 b1 b2 h1 h2 h
    cases a2 with
    | nil =>
      simp only [List.cons_append, List.nil_append, List.cons.injEq] at h
      exact absurd (h.1 ▸ List.mem_cons_self c a1') h1
    | cons c' a2' =>
      simp only [List.cons_append, List.cons.injEq] at h
      obtain ⟨hc, hrest⟩ := h
      have h1' : ':' ∉ a1' := fun hm => h1 (List.mem_cons_of_mem _ hm)
      have h2' : ':' ∉ a2' := fun hm => h2 (List.mem_cons_of_mem _ hm)
      obtain ⟨ha, hb⟩ := ih h1' h2' hrest
      exact ⟨by rw [hc, ha], hb⟩

/-- `record_key` is injective on pairs of non-negative identifiers: the
decimal digits contain no `:`, so the single `:` separates the two
components unambiguously. -/
theorem record_key_inj {g1 m1 g2 m2 : Nat}
    (h : record_key g1 m1 = record_key g2 m2) : g1 = g2 ∧ m1 = m2 := by
  have hd : natDigits g1 ++ ':' :: natDigits m1
      = natDigits g2 ++ ':' :: natDigits m2 := congrArg String.data h
  obtain ⟨ha, hb⟩ :=
    append_colon_inj (colon_not_mem_natDigits g1) (colon_not_mem_natDigits g2) hd
  exact ⟨natDigits_inj ha, natDigits_inj hb⟩

theorem asNat_ofNat (n : Nat) : asNat (Json.num ((n : Nat) : Int)) = some n := by
  simp [asNat]

theorem asNatList_map (ids : List Nat) :
    asNatList (ids.map (fun i => Json.num ((i : Nat) : Int))) = some ids := by
  induction ids with
  | nil => rfl
  | cons i rest ih =>
    simp [asNatList, asNat_ofNat, ih]

theorem decodeRecord_asdict (r : RoleMenuRecord) :
    decodeRecord (asdict r) = some r := by
  simp [decodeRecord, asdict, getField, allowedKeys, asNat_ofNat, asNatList_map]

theorem decodeEntries_save (m : Registry) :
    decodeEntries (m.map (fun kv => (kv.1, asdict kv.2))) = some m := by
  induction m with
  | nil => rfl
  | cons kv rest ih =>
    simp only [List.map_cons, decodeEntries, decodeRecord_asdict, ih]

theorem create_tooMany_eq {ctx : BotCtx} {g : Guild} (reg : Registry)
    (title roles : String) (multi : Bool)
    (hg : ctx.guild = some g) (hu : ctx.user_present = true)
    (hm : ctx.manage_roles = true)
    (hlen : (parse_role_mentions roles).length > 25) :
    create ctx reg title roles multi = ⟨CreateOutcome.tooMany, false, reg, none⟩ := by
  have hne : (parse_role_mentions roles).isEmpty = false := by
    cases hp : parse_role_mentions roles with
    | nil => rw [hp] at hlen; simp at hlen
    | cons a l => rfl
  unfold create
  rw [hg]
  simp only [hu, hm, Bool.not_true, Bool.false_eq_true, if_false, hne,
    if_true, hlen, ite_true]

theorem create_roleTooHigh_eq {ctx : BotCtx} {g : Guild} (reg : Registry)
    (title roles : String) (multi : Bool) {nm : String}
    (hg : ctx.guild = some g) (hu : ctx.user_present = true)
    (hm : ctx.manage_roles = true)
    (hne : parse_role_mentions roles ≠ [])
    (hle : ¬ (parse_role_mentions roles).length > 25)
    (herr : validateRoles g ctx.top_role (parse_role_mentions roles)
      = Except.error nm) :
    create ctx reg title roles multi
      = ⟨CreateOutcome.roleTooHigh nm, false, reg, none⟩ := by
  have hne' : (parse_role_mentions roles).isEmpty = false := by
    cases hp : parse_role_mentions roles with
    | nil => exact absurd hp hne
    | cons a l => rfl
  unfold create
  rw [hg]
  simp only [hu, hm, Bool.not_true, Bool.false_eq_true, if_false, hne',
    hle, ite_false, herr]

theorem create_success_eq {ctx : BotCtx} {g : Guild} (reg : Registry)
    (title roles : String) (multi : Bool) {resolved : List Role}
    (hg : ctx.guild = some g) (hu : ctx.user_present = true)
    (hm : ctx.manage_roles = true)
    (hne : parse_role_mentions roles ≠ [])
    (hle : ¬ (parse_role_mentions roles).length > 25)
    (hok : validateRoles g ctx.top_role (parse_role_mentions roles)
      = Except.ok resolved) :
    create ctx reg title roles multi
      = ⟨CreateOutcome.success ctx.next_message_id, true,
         Registry.setKey (record_key g.id ctx.next_message_id)
           ⟨g.id, ctx.channel_id, ctx.next_message_id, title,
             resolved.map (fun r => r.id), multi⟩ reg,
         some (save_storage (Registry.setKey (record_key g.id ctx.next_message_id)
           ⟨g.id, ctx.channel_id, ctx.next_message_id, title,
             resolved.map (fun r => r.id), multi⟩ reg))⟩ := by
  have hne' : (parse_role_mentions roles).isEmpty = false := by
    cases hp : parse_role_mentions roles with
    | nil => exact absurd hp hne
    | cons a l => rfl
  unfold create
  rw [hg]
  simp only [hu, hm, Bool.not_true, Bool.false_eq_true, if_false, hne',
    hle, ite_false, hok]

theorem create_registry_cases (ctx : BotCtx) (reg : Registry)
    (title roles : String) (multi : Bool) :
    (create ctx reg title roles multi).registry = reg ∨
    ∃ g resolved, ctx.guild = some g ∧
      (parse_role_mentions roles).length ≤ 25 ∧
      validateRoles g ctx.top_role (parse_role_mentions roles)
        = Except.ok resolved ∧
      (create ctx reg title roles multi).registry
        = Registry.setKey (record_key g.id ctx.next_message_id)
            ⟨g.id, ctx.channel_id, ctx.next_message_id, title,
              resolved.map (fun r => r.id), multi⟩ reg := by
  unfold create
  cases hg : ctx.guild with
  | none => exact Or.inl rfl
  | some g =>
    cases hu : ctx.user_present with
    | false => exact Or.inl rfl
    | true =>
      cases hm : ctx.manage_roles with
      | false => exact Or.inl rfl
      | true =>
        dsimp only
        by_cases hne : (parse_role_mentions roles).isEmpty = true
        · rw [if_pos hne]
          exact Or.inl rfl
        · rw [if_neg hne]
          by_cases hlen : (parse_role_mentions roles).length > 25
          · rw [if_pos hlen]
            exact Or.inl rfl
          · rw [if_neg hlen]
            cases hval : validateRoles g ctx.top_role (parse_role_mentions roles) with
            | error nm =>
              dsimp only
              exact Or.inl rfl
            | ok resolved =>
              dsimp only
              exact Or.inr ⟨g, resolved, rfl, by omega, hval, rfl⟩

theorem delete_wrongServer_eq {ctx : DeleteCtx} {gid g_id c_id msg_id : Nat}
    (reg : Registry) {link : String}
    (hg : ctx.guild_id = some gid)
    (hl : parseMessageLink link = some (g_id, c_id, msg_id))
    (hne : g_id ≠ gid) :
    delete ctx reg link = ⟨DeleteOutcome.wrongServer, reg, none, false⟩ := by
  simp only [delete, hg, hl]
  rw [if_pos hne]

theorem delete_notFound_eq {ctx : DeleteCtx} {gid c_id msg_id : Nat}
    (reg : Registry) {link : String}
    (hg : ctx.guild_id = some gid)
    (hl : parseMessageLink link = some (gid, c_id, msg_id))
    (habs : Registry.lookup (record_key gid msg_id) reg = none) :
    delete ctx reg link = ⟨DeleteOutcome.notFound, reg, none, false⟩ := by
  simp only [delete, hg, hl]
  rw [if_neg (by simp)]
  simp only [habs]

theorem delete_found_eq {ctx : DeleteCtx} {gid c_id msg_id : Nat}
    (reg : Registry) {link : String} {r : RoleMenuRecord}
    (hg : ctx.guild_id = some gid)
    (hl : parseMessageLink link = some (gid, c_id, msg_id))
    (hr : Registry.lookup (record_key gid msg_id) reg = some r) :
    (delete ctx reg link).registry
      = Registry.eraseKey (record_key gid msg_id) reg ∧
    (delete ctx reg link).saved
      = some (save_storage (Registry.eraseKey (record_key gid msg_id) reg)) := by
  simp only [delete, hg, hl]
  rw [if_neg (by simp)]
  simp [hr]

theorem delete_registry_cases (ctx : DeleteCtx) (reg : Registry) (link : String) :
    (delete ctx reg link).registry = reg ∨
    ∃ k, (delete ctx reg link).registry = Registry.eraseKey k reg := by
  unfold delete
  cases hg : ctx.guild_id with
  | none => exact Or.inl rfl
  | some gid =>
    cases hl : parseMessageLink link with
    | none => exact Or.inl rfl
    | some t =>
      obtain ⟨g_id, c_id, msg_id⟩ := t
      simp only
      by_cases hne : g_id = gid
      · rw [if_neg (by simp [hne])]
        cases hr : Registry.lookup (record_key g_id msg_id) reg with
        | none => exact Or.inl rfl
        | some r => exact Or.inr ⟨record_key g_id msg_id, rfl⟩
      · rw [if_pos (by simpa using hne)]
        exact Or.inl rfl

/-! ## Claims -/

/-- C1, counterexample: with the member holding role 1, the menu managing
role 1 and the member selecting role 1, the handler's remove set and add
set both differ from the spec's `toRevoke`/`toGrant`, and the
held-and-selected role 1 is placed in both sets (removed and re-added)
rather than in neither. -/
theorem c1_selection_diff_counterexample :
    roles_to_remove ({1} : Finset Nat) ({1} : Finset Nat)
        ≠ spec_toRevoke ({1} : Finset Nat) ({1} : Finset Nat) ({1} : Finset Nat) ∧
    roles_to_add ({1} : Finset Nat) ({1} : Finset Nat)
        ≠ spec_toGrant ({1} : Finset Nat) ({1} : Finset Nat) ∧
    1 ∈ roles_to_remove ({1} : Finset Nat) ({1} : Finset Nat) ∧
    1 ∈ roles_to_add ({1} : Finset Nat) ({1} : Finset Nat) := by
  decide

/-- C1, amended: the selection handler computes `roles_to_remove = current
∩ menu` (all held menu roles, not excluding the selected ones) and
`roles_to_add = selected ∩ existing` (all selected roles that resolve, not
excluding the held ones); equivalently, the spec's `toRevoke` plus the
held-and-selected menu roles, and the spec's `toGrant` plus the
held-and-selected roles. A role that is currently held, selected, managed
by the menu and existing is placed in both sets — removed and then
re-added, not left untouched. -/
theorem c1_selection_handler_sets
    (current menu selected existing : Finset Nat) :
    roles_to_remove current menu = current ∩ menu ∧
    roles_to_add existing selected = selected ∩ existing ∧
    roles_to_remove current menu
      = spec_toRevoke current menu selected ∪ (current ∩ menu ∩ selected) ∧
    roles_to_add existing selected
      = (spec_toGrant current selected ∪ (selected ∩ current)) ∩ existing ∧
    (∀ r, r ∈ current → r ∈ menu → r ∈ selected → r ∈ existing →
      r ∈ roles_to_remove current menu ∧ r ∈ roles_to_add existing selected) := by
  refine ⟨?_, ?_, ?_, ?_, ?_⟩
  · ext r
    simp [roles_to_remove]
  · ext r
    simp [roles_to_add, and_comm]
  · ext r
    simp only [roles_to_remove, spec_toRevoke, Finset.mem_filter, Finset.mem_union,
      Finset.mem_sdiff, Finset.mem_inter]
    tauto
  · ext r
    simp only [roles_to_add, spec_toGrant, Finset.mem_filter, Finset.mem_union,
      Finset.mem_sdiff, Finset.mem_inter]
    tauto
  · intro r hc hm hs he
    simp only [roles_to_remove, roles_to_add, Finset.mem_filter]
    exact ⟨⟨hc, hm⟩, hs, he⟩

/-- C1, witness: instantiating the characterization at concrete sets. -/
theorem c1_selection_handler_sets_witness :
    1 ∈ roles_to_remove ({1} : Finset Nat) ({1} : Finset Nat) ∧
    1 ∈ roles_to_add ({1} : Finset Nat) ({1} : Finset Nat) :=
  (c1_selection_handler_sets {1} {1} {1} {1}).2.2.2.2 1
    (by decide) (by decide) (by decide) (by decide)

/-- C2, counterexample: with the member holding role 1, the menu managing
role 1 and role 1 selected, the remove and add sets are not disjoint, and
after the first application the resubmitted selection again produces a
non-empty remove set. -/
theorem c2_disjoint_counterexample :
    roles_to_remove ({1} : Finset Nat) ({1} : Finset Nat)
        ∩ roles_to_add ({1} : Finset Nat) ({1} : Finset Nat) ≠ ∅ ∧
    roles_to_remove
        (applySelection ({1} : Finset Nat) {1} {1} {1}) ({1} : Finset Nat) ≠ ∅ := by
  decide

/-- C2, amended: the handler's remove and add sets overlap exactly on
`current ∩ menu ∩ selected ∩ existing`, so they are disjoint only when no
selected menu role is already held. Resubmitting the same selection after
the first application yields remove and add sets both equal to
`selected ∩ existing` — not empty — but the member's resulting role set is
unchanged: the net application is idempotent. -/
theorem c2_overlap_and_idempotence
    (memberRoles menu existing selected : Finset Nat)
    (hsub : selected ⊆ menu) :
    roles_to_remove memberRoles menu ∩ roles_to_add existing selected
      = memberRoles ∩ menu ∩ (selected ∩ existing) ∧
    applySelection (applySelection memberRoles menu existing selected)
        menu existing selected
      = applySelection memberRoles menu existing selected ∧
    roles_to_remove (applySelection memberRoles menu existing selected) menu
      = selected ∩ existing ∧
    roles_to_add existing selected = selected ∩ existing := by
  simp only [Finset.subset_iff] at hsub
  refine ⟨?_, ?_, ?_, ?_⟩
  · ext r
    simp only [roles_to_remove, roles_to_add, Finset.mem_inter, Finset.mem_filter]
  · ext r
    have hs := @hsub r
    simp only [applySelection, roles_to_remove, roles_to_add, Finset.mem_union,
      Finset.mem_sdiff, Finset.mem_filter]
    tauto
  · ext r
    have hs := @hsub r
    simp only [applySelection, roles_to_remove, roles_to_add, Finset.mem_union,
      Finset.mem_sdiff, Finset.mem_filter, Finset.mem_inter]
    tauto
  · ext r
    simp only [roles_to_add, Finset.mem_filter, Finset.mem_inter]

/-- C2, witness: instantiating the overlap-and-idempotence theorem at
concrete sets. -/
theorem c2_overlap_and_idempotence_witness :
    applySelection (applySelection ({1} : Finset Nat) {1} {1} {1}) {1} {1} {1}
      = applySelection ({1} : Finset Nat) {1} {1} {1} :=
  (c2_overlap_and_idempotence {1} {1} {1} {1} (by decide)).2.1

/-- C3, counterexample: invoking `create` mentioning only role id 999,
which does not exist in the guild, is not aborted: the command posts the
menu message and stores a record (with the unknown id silently dropped),
instead of stopping with a user-visible explanation and no side effect. -/
theorem c3_missing_role_counterexample :
    (create ⟨true, some ⟨10, [⟨5, "r5", 1⟩]⟩, true, ⟨99, "bot", 5⟩, 7, 42⟩
        [] "t" "<@&999>" true).posted = true ∧
    (create ⟨true, some ⟨10, [⟨5, "r5", 1⟩]⟩, true, ⟨99, "bot", 5⟩, 7, 42⟩
        [] "t" "<@&999>" true).registry
      = [(record_key 10 42, ⟨10, 7, 42, "t", [], true⟩)] := by
  decide

/-- C3, amended: a referenced role that exists at or above the bot's top
role aborts `create` with a user-visible `roleTooHigh` explanation and no
side effect; but a referenced role id that does not resolve is silently
skipped, not an abort: if every resolvable mentioned role sits strictly
below the bot's top role, the command succeeds and stores exactly the
resolvable mentions' ids. -/
theorem c3_role_validation
    (ctx : BotCtx) (reg : Registry) (title roles1 roles2 : String) (multi : Bool)
    (g : Guild)
    (hg : ctx.guild = some g) (hu : ctx.user_present = true)
    (hm : ctx.manage_roles = true)
    (hhigh : ∃ rid ∈ parse_role_mentions roles1, ∃ r,
      g.get_role rid = some r ∧ Role.ge r ctx.top_role = true)
    (hle1 : (parse_role_mentions roles1).length ≤ 25)
    (hlow : ∀ rid ∈ parse_role_mentions roles2, ∀ r,
      g.get_role rid = some r → Role.ge r ctx.top_role = false)
    (hne2 : parse_role_mentions roles2 ≠ [])
    (hle2 : (parse_role_mentions roles2).length ≤ 25) :
    (∃ nm, create ctx reg title roles1 multi
        = ⟨CreateOutcome.roleTooHigh nm, false, reg, none⟩) ∧
    (create ctx reg title roles2 multi).outcome
        = CreateOutcome.success ctx.next_message_id ∧
    (create ctx reg title roles2 multi).posted = true ∧
    (create ctx reg title roles2 multi).registry
      = Registry.setKey (record_key g.id ctx.next_message_id)
          ⟨g.id, ctx.channel_id, ctx.next_message_id, title,
            ((parse_role_mentions roles2).filterMap g.get_role).map (fun r => r.id),
            multi⟩ reg := by
  obtain ⟨rid0, hmem0, hrest0⟩ := hhigh
  have hne1 : parse_role_mentions roles1 ≠ [] := by
    intro hnil
    rw [hnil] at hmem0
    cases hmem0
  obtain ⟨nm, hnm⟩ := validateRoles_error_of_exists ⟨rid0, hmem0, hrest0⟩
  have hok := validateRoles_ok_of_forall hlow
  refine ⟨⟨nm, create_roleTooHigh_eq reg title roles1 multi hg hu hm hne1
      (by omega) hnm⟩, ?_, ?_, ?_⟩ <;>
    rw [create_success_eq reg title roles2 multi hg hu hm hne2 (by omega) hok]

/-- C3, witness: in a guild holding role 5 (below the bot) and role 6
(above the bot), mentioning role 6 aborts while mentioning only the
unresolvable id 999 posts a menu with no roles. -/
theorem c3_role_validation_witness :
    (∃ nm, create ⟨true, some ⟨10, [⟨5, "r5", 1⟩, ⟨6, "r6", 9⟩]⟩, true,
          ⟨99, "bot", 5⟩, 7, 42⟩ [] "t" "<@&6>" true
        = ⟨CreateOutcome.roleTooHigh nm, false, [], none⟩) ∧
    (create ⟨true, some ⟨10, [⟨5, "r5", 1⟩, ⟨6, "r6", 9⟩]⟩, true,
          ⟨99, "bot", 5⟩, 7, 42⟩ [] "t" "<@&999>" true).outcome
      = CreateOutcome.success 42 := by
  have h := c3_role_validation
    ⟨true, some ⟨10, [⟨5, "r5", 1⟩, ⟨6, "r6", 9⟩]⟩, true, ⟨99, "bot", 5⟩, 7, 42⟩
    [] "t" "<@&6>" "<@&999>" true ⟨10, [⟨5, "r5", 1⟩, ⟨6, "r6", 9⟩]⟩
    rfl rfl rfl
    ⟨6, by decide, ⟨6, "r6", 9⟩, by decide, by decide⟩
    (by decide)
    (by
      intro rid hmem r hr
      have hl : parse_role_mentions "<@&999>" = [999] := by decide
      rw [hl] at hmem
      have h999 : rid = 999 := List.mem_singleton.mp hmem
      subst h999
      rw [show Guild.get_role ⟨10, [⟨5, "r5", 1⟩, ⟨6, "r6", 9⟩]⟩ 999 = none from by decide] at hr
      exact Option.noConfusion hr)
    (by decide) (by decide)
  exact ⟨h.1, h.2.1⟩

/-- C4, counterexample: creating a menu whose `roles` text mentions role 5
twice stores a record with `role_ids = [5, 5]`, which is not pairwise
distinct. -/
theorem c4_duplicate_roles_counterexample :
    (create ⟨true, some ⟨10, [⟨5, "r5", 1⟩]⟩, true, ⟨99, "bot", 5⟩, 7, 42⟩
        [] "t" "<@&5> <@&5>" true).registry
      = [(record_key 10 42, ⟨10, 7, 42, "t", [5, 5], true⟩)] ∧
    ¬ ([5, 5] : List Nat).Nodup := by
  decide

/-- C4, amended: every record `create` stores has `role_ids` of length at
most 25 (in a registry whose prior records already satisfy the bound); the
pairwise-distinctness half of the claim fails, duplicate mentions being
preserved. -/
theorem c4_role_ids_le_25
    (ctx : BotCtx) (reg : Registry) (title roles : String) (multi : Bool)
    (kv : String × RoleMenuRecord)
    (hreg : ∀ kv' ∈ reg, kv'.2.role_ids.length ≤ 25)
    (hkv : kv ∈ (create ctx reg title roles multi).registry) :
    kv.2.role_ids.length ≤ 25 := by
  rcases create_registry_cases ctx reg title roles multi with
    h | ⟨g, resolved, hg, hle, hok, h⟩
  · exact hreg kv (h ▸ hkv)
  · rw [h] at hkv
    rcases Registry.mem_setKey hkv with h' | h'
    · subst h'
      simp only [List.length_map]
      exact le_trans (validateRoles_ok_length hok) hle
    · exact hreg kv h'

/-- C4, witness: the record stored for a duplicate mention has 2 ≤ 25 role
ids. -/
theorem c4_role_ids_le_25_witness :
    ((record_key 10 42,
        (⟨10, 7, 42, "t", [5, 5], true⟩ : RoleMenuRecord))).2.role_ids.length ≤ 25 :=
  c4_role_ids_le_25
    ⟨true, some ⟨10, [⟨5, "r5", 1⟩]⟩, true, ⟨99, "bot", 5⟩, 7, 42⟩
    [] "t" "<@&5> <@&5>" true
    (record_key 10 42, ⟨10, 7, 42, "t", [5, 5], true⟩)
    (fun kv' h => absurd h (List.not_mem_nil kv'))
    (by decide)

/-- C5: with the guard checks passed (guild context, manage-roles
permission), a `roles` text parsing to 26 pairwise-distinct role mentions
is rejected with the 25-option limit message, posts no message, leaves the
registry unchanged and writes nothing to the storage file. -/
theorem c5_twenty_six_mentions_rejected
    (ctx : BotCtx) (reg : Registry) (title roles : String) (multi : Bool)
    (g : Guild)
    (hg : ctx.guild = some g) (hu : ctx.user_present = true)
    (hm : ctx.manage_roles = true)
    (hlen : (parse_role_mentions roles).length = 26)
    (_hdist : (parse_role_mentions roles).Nodup) :
    create ctx reg title roles multi = ⟨CreateOutcome.tooMany, false, reg, none⟩ :=
  create_tooMany_eq reg title roles multi hg hu hm (by omega)

set_option maxRecDepth 1000000 in
/-- C5, witness: a concrete text with 26 distinct role mentions is
rejected with no effects. -/
theorem c5_twenty_six_mentions_rejected_witness :
    create ⟨true, some ⟨10, []⟩, true, ⟨99, "bot", 5⟩, 7, 42⟩ [] "t"
        "<@&1><@&2><@&3><@&4><@&5><@&6><@&7><@&8><@&9><@&10><@&11><@&12><@&13><@&14><@&15><@&16><@&17><@&18><@&19><@&20><@&21><@&22><@&23><@&24><@&25><@&26>"
        true
      = ⟨CreateOutcome.tooMany, false, [], none⟩ :=
  c5_twenty_six_mentions_rejected
    ⟨true, some ⟨10, []⟩, true, ⟨99, "bot", 5⟩, 7, 42⟩ [] "t"
    "<@&1><@&2><@&3><@&4><@&5><@&6><@&7><@&8><@&9><@&10><@&11><@&12><@&13><@&14><@&15><@&16><@&17><@&18><@&19><@&20><@&21><@&22><@&23><@&24><@&25><@&26>"
    true ⟨10, []⟩ rfl rfl rfl (by decide) (by decide)



/-- C6: saving a valid registry mapping (pairwise-distinct keys, as a
Python dict guarantees) to the storage file and loading the file back
yields the same mapping: the same keys, and for each key a record with the
same field values. -/
theorem c6_save_load_roundtrip (m : Registry) (_hnd : (m.map Prod.fst).Nodup) :
    load_storage (FileState.parsed (save_storage m)) = Except.ok m := by
  simp only [load_storage, save_storage, decodeStorage, decodeEntries_save]

/-- C6, witness: round trip of a concrete two-record mapping. -/
theorem c6_save_load_roundtrip_witness :
    load_storage (FileState.parsed (save_storage
        [(record_key 10 42, ⟨10, 7, 42, "t", [5, 6], true⟩),
         (record_key 10 43, ⟨10, 7, 43, "u", [], false⟩)]))
      = Except.ok
        [(record_key 10 42, ⟨10, 7, 42, "t", [5, 6], true⟩),
         (record_key 10 43, ⟨10, 7, 43, "u", [], false⟩)] :=
  c6_save_load_roundtrip
    [(record_key 10 42, ⟨10, 7, 42, "t", [5, 6], true⟩),
     (record_key 10 43, ⟨10, 7, 43, "u", [], false⟩)]
    (by decide)

/-- C7: `load_storage` returns the empty mapping when the storage file is
absent, while a file that is present but does not parse as JSON, or whose
document does not decode as a registry, raises the corrupt-storage error —
which propagates out of the module-level `storage = load_storage()` and
halts startup — rather than yielding an empty registry. -/
theorem c7_load_missing_or_corrupt :
    load_storage FileState.missing = Except.ok [] ∧
    load_storage FileState.malformed = Except.error StorageError.corrupt ∧
    (∀ j, decodeStorage j = none →
      load_storage (FileState.parsed j) = Except.error StorageError.corrupt) := by
  refine ⟨rfl, rfl, ?_⟩
  intro j hj
  simp only [load_storage, hj]

/-- C7, witness: a parseable file whose document is a bare string fails to
decode and is reported corrupt, not treated as empty. -/
theorem c7_load_missing_or_corrupt_witness :
    load_storage (FileState.parsed (Json.str "x"))
      = Except.error StorageError.corrupt :=
  c7_load_missing_or_corrupt.2.2 (Json.str "x") rfl

/-- C8: deleting a registered menu — valid link, guild matching the
invocation, key present, registry keys pairwise distinct as in a Python
dict — removes exactly the key derived from the link's guild and message
identifiers, leaves every other key bound to the same record, and
persists the updated mapping to the storage file. -/
theorem c8_delete_removes_exactly_one
    (ctx : DeleteCtx) (reg : Registry) (link : String)
    (gid c_id msg_id : Nat) (r : RoleMenuRecord)
    (hg : ctx.guild_id = some gid)
    (hl : parseMessageLink link = some (gid, c_id, msg_id))
    (hr : Registry.lookup (record_key gid msg_id) reg = some r)
    (hnd : (reg.map Prod.fst).Nodup) :
    (delete ctx reg link).registry
      = Registry.eraseKey (record_key gid msg_id) reg ∧
    Registry.lookup (record_key gid msg_id) (delete ctx reg link).registry = none ∧
    (∀ k, k ≠ record_key gid msg_id →
      Registry.lookup k (delete ctx reg link).registry = Registry.lookup k reg) ∧
    (delete ctx reg link).saved
      = some (save_storage (delete ctx reg link).registry) := by
  obtain ⟨hregEq, hsaved⟩ := delete_found_eq reg hg hl hr
  refine ⟨hregEq, ?_, ?_, ?_⟩
  · rw [hregEq]
    exact Registry.lookup_eraseKey_self hnd
  · intro k hk
    rw [hregEq]
    exact Registry.lookup_eraseKey_ne hk
  · rw [hsaved, hregEq]

/-- C8, witness: deleting one of two registered menus removes its key and
keeps the other binding. -/
theorem c8_delete_removes_exactly_one_witness :
    Registry.lookup (record_key 10 42)
      (delete ⟨some 10, fun _ => true, FetchOutcome.ok⟩
        [(record_key 10 42, ⟨10, 7, 42, "t", [5], true⟩),
         (record_key 10 43, ⟨10, 7, 43, "u", [6], true⟩)]
        "https://discord.com/channels/10/7/42").registry = none ∧
    Registry.lookup (record_key 10 43)
      (delete ⟨some 10, fun _ => true, FetchOutcome.ok⟩
        [(record_key 10 42, ⟨10, 7, 42, "t", [5], true⟩),
         (record_key 10 43, ⟨10, 7, 43, "u", [6], true⟩)]
        "https://discord.com/channels/10/7/42").registry
      = Registry.lookup (record_key 10 43)
        [(record_key 10 42, ⟨10, 7, 42, "t", [5], true⟩),
         (record_key 10 43, ⟨10, 7, 43, "u", [6], true⟩)] := by
  have h := c8_delete_removes_exactly_one
    ⟨some 10, fun _ => true, FetchOutcome.ok⟩
    [(record_key 10 42, ⟨10, 7, 42, "t", [5], true⟩),
     (record_key 10 43, ⟨10, 7, 43, "u", [6], true⟩)]
    "https://discord.com/channels/10/7/42" 10 7 42
    ⟨10, 7, 42, "t", [5], true⟩ rfl (by decide) (by decide) (by decide)
  exact ⟨h.2.1, h.2.2.1 (record_key 10 43) (by decide)⟩

/-- C9: in `delete`, a link whose guild id differs from the invoking guild
is rejected as belonging to another server, and a matching link whose key
is not registered is reported as not found; both stop with the registry
unchanged and nothing written to the storage file. -/
theorem c9_delete_rejections
    (ctx : DeleteCtx) (reg : Registry) (gid : Nat)
    (link1 link2 : String) (g1 c1 m1 c2 m2 : Nat)
    (hg : ctx.guild_id = some gid)
    (h1 : parseMessageLink link1 = some (g1, c1, m1)) (hne : g1 ≠ gid)
    (h2 : parseMessageLink link2 = some (gid, c2, m2))
    (habs : Registry.lookup (record_key gid m2) reg = none) :
    delete ctx reg link1 = ⟨DeleteOutcome.wrongServer, reg, none, false⟩ ∧
    delete ctx reg link2 = ⟨DeleteOutcome.notFound, reg, none, false⟩ :=
  ⟨delete_wrongServer_eq reg hg h1 hne, delete_notFound_eq reg hg h2 habs⟩

/-- C9, witness: a link into guild 11 invoked from guild 10 is rejected,
and a guild-10 link whose message is not registered reports not-found;
the registry and file are untouched in both runs. -/
theorem c9_delete_rejections_witness :
    delete ⟨some 10, fun _ => true, FetchOutcome.ok⟩
        [(record_key 10 42, ⟨10, 7, 42, "t", [5], true⟩)]
        "https://discord.com/channels/11/7/42"
      = ⟨DeleteOutcome.wrongServer,
         [(record_key 10 42, ⟨10, 7, 42, "t", [5], true⟩)], none, false⟩ ∧
    delete ⟨some 10, fun _ => true, FetchOutcome.ok⟩
        [(record_key 10 42, ⟨10, 7, 42, "t", [5], true⟩)]
        "https://discord.com/channels/10/7/43"
      = ⟨DeleteOutcome.notFound,
         [(record_key 10 42, ⟨10, 7, 42, "t", [5], true⟩)], none, false⟩ :=
  c9_delete_rejections
    ⟨some 10, fun _ => true, FetchOutcome.ok⟩
    [(record_key 10 42, ⟨10, 7, 42, "t", [5], true⟩)]
    10 "https://discord.com/channels/11/7/42" "https://discord.com/channels/10/7/43"
    11 7 42 7 43 rfl (by decide) (by decide) (by decide) (by decide)

/-- C10: `record_key` is injective on pairs of non-negative identifiers
(two distinct (guild, message) pairs never collide on one key), and the
invariant that every stored binding's key equals the `record_key` built
from its own record's `guild_id` and `message_id` is preserved by both
`create` and `delete`. -/
theorem c10_key_invariant
    (ctx : BotCtx) (ctx2 : DeleteCtx) (reg : Registry)
    (title roles link : String) (multi : Bool)
    (g1 m1 g2 m2 : Nat)
    (hinv : KeyInv reg) :
    (record_key g1 m1 = record_key g2 m2 → g1 = g2 ∧ m1 = m2) ∧
    KeyInv (create ctx reg title roles multi).registry ∧
    KeyInv (delete ctx2 reg link).registry := by
  refine ⟨record_key_inj, ?_, ?_⟩
  · rcases create_registry_cases ctx reg title roles multi with
      h | ⟨g, resolved, hg, hle, hok, h⟩
    · rw [h]
      exact hinv
    · rw [h]
      intro kv hkv
      rcases Registry.mem_setKey hkv with h' | h'
      · rw [h']
      · exact hinv kv h'
  · rcases delete_registry_cases ctx2 reg link with h | ⟨k, h⟩
    · rw [h]
      exact hinv
    · rw [h]
      intro kv hkv
      exact hinv kv (Registry.mem_eraseKey hkv)

/-- C10, witness: instantiating the invariant theorem at a concrete
one-record registry and applying the injectivity conjunct. -/
theorem c10_key_invariant_witness : (12 : Nat) = 12 ∧ (3 : Nat) = 3 :=
  (c10_key_invariant
    ⟨true, some ⟨10, [⟨5, "r5", 1⟩]⟩, true, ⟨99, "bot", 5⟩, 7, 44⟩
    ⟨some 10, fun _ => true, FetchOutcome.ok⟩
    [(record_key 10 42, ⟨10, 7, 42, "t", [5], true⟩)]
    "t" "<@&5>" "https://discord.com/channels/10/7/42" true
    12 3 12 3
    (fun kv hkv => by rw [List.mem_singleton.mp hkv])).1 rfl

end WolfeBot
